import Mathlib

/-!
Verification of the CallPotential follow-ups scraper.

Shallow embedding of `src/scrape_followups.py` (class `CallPotentialScraper`).
The DOM is modelled by explicit data: a cell is its inner text plus the
optional text of a nested `p.location-name` element; a row is its list of
`td` cells; a candidate table carries its `th` header texts.  Browser waits,
prints and screenshots are side effects outside the embedding; fallible
operations return `Except`/`Option`.  Python floats appear only in
`int(len(rows) * 0.05)`, modelled as exact rational arithmetic with
truncation (`* 5 / 100` on `Nat`), which agrees with the float computation
for all realistic row counts.
-/

set_option autoImplicit false

namespace Scraper

/-! ## Python string primitives

All operations are written over the character list of the string so that
they reduce inside the kernel.  `pyContains hay needle` models Python
`needle in hay` (substring test); `pyStrip` models `str.strip()`;
`pyRemoveChar c` models `str.replace(c, '')` for a one-character pattern;
`pySubstChar a b` models `str.replace(a, b)` for one-character pattern and
replacement; `pyUpper` models `str.upper()` (ASCII); `pyIsDigit` models
`str.isdigit` restricted to ASCII decimal digits; `pyParseInt?` models
`int(s)`: optional surrounding whitespace, optional single sign, then a
non-empty run of decimal digits.
-/

def pyContains (hay needle : String) : Bool :=
  hay.data.tails.any (fun t => needle.data.isPrefixOf t)

def pyStrip (s : String) : String :=
  ⟨((s.data.dropWhile Char.isWhitespace).reverse.dropWhile Char.isWhitespace).reverse⟩

def pyRemoveChar (c : Char) (s : String) : String :=
  ⟨s.data.filter (fun ch => ch ≠ c)⟩

def pySubstChar (a b : Char) (s : String) : String :=
  ⟨s.data.map (fun ch => if ch = a then b else ch)⟩

def pyUpper (s : String) : String :=
  ⟨s.data.map Char.toUpper⟩

def pyIsDigit (s : String) : Bool :=
  !s.isEmpty && s.data.all Char.isDigit

def digitsVal (cs : List Char) : Nat :=
  cs.foldl (fun a c => a * 10 + (c.toNat - 48)) 0

def pyParseInt? (s : String) : Option Int :=
  match (pyStrip s).data with
  | [] => none
  | c :: rest =>
    if c = '-' then
      if rest ≠ [] ∧ rest.all Char.isDigit then some (-(digitsVal rest : Int)) else none
    else if c = '+' then
      if rest ≠ [] ∧ rest.all Char.isDigit then some (digitsVal rest) else none
    else
      if (c :: rest).all Char.isDigit then some (digitsVal (c :: rest)) else none

/-! ## Data model -/

/-- One `td` cell: its inner text, and the inner text of a nested
`p.location-name` element when present. -/
structure Cell where
  text : String
  locName : Option String
  deriving DecidableEq, Repr

/-- A data row is its list of `td` cells. -/
abbrev Row := List Cell

/-- A candidate table, identified by its `th` header texts. -/
structure Table where
  headers : List String
  deriving DecidableEq, Repr

/-- A document frame exposes its tables in document order. -/
abbrev Frame := List Table

inductive ScrapeError where
  | tableNotFound
  | tableNotPopulated
  | missingColumns (headers : List String)
  | noValidData
  deriving DecidableEq, Repr

/-- ExtractedRecord: one scraped row. -/
structure ExtractedRecord where
  location : String
  followups : Int
  unprocessed : Int
  deriving DecidableEq, Repr

/-- ColumnIndexMap: 0-based positions of the three required columns. -/
structure ColumnIndexMap where
  locationIdx : Nat
  followupIdx : Nat
  unprocessedIdx : Nat
  deriving DecidableEq, Repr

/-! ## TableLocator (scrape_table, frame/table scan)

`for idx, frame in enumerate(frames): for t in tables: ... break` with the
`if headers:` guard; the first table whose space-joined, upper-cased header
text contains both substrings wins.
-/

/-- Python `sep.join(parts)`. -/
def pyJoin (sep : String) : List String → String
  | [] => ""
  | h :: t => t.foldl (fun acc x => acc ++ sep ++ x) h

/-- Models `' '.join(header_texts).upper()`. -/
def headerJoin (headers : List String) : String :=
  pyUpper (pyJoin " " headers)

/-- The inner-loop test: a non-empty `th` list whose joined upper-cased text
contains `LOCATION` and `FOLLOW`. -/
def tableQualifies (t : Table) : Bool :=
  !t.headers.isEmpty &&
    (pyContains (headerJoin t.headers) "LOCATION" &&
     pyContains (headerJoin t.headers) "FOLLOW")

/-- Inner loop over one frame's tables: first qualifying table, if any. -/
def locateInTables : List Table → Option Table
  | [] => none
  | t :: rest => if tableQualifies t then some t else locateInTables rest

/-- Outer loop over frames; on exhaustion the code raises
`Could not find table ...` (after a screenshot, a side effect not
modelled). -/
def locateTable : List Frame → Except ScrapeError Table
  | [] => .error .tableNotFound
  | f :: rest =>
    match locateInTables f with
    | some t => .ok t
    | none => locateTable rest

/-! ## TablePoller (scrape_table, retry loop) -/

/-- The state of the table at one poll attempt: rows found under `tbody tr`,
and all `tr` rows (each modelled by its `td` cells; a header-only `tr` has
an empty `td` list). -/
structure TableSnapshot where
  tbodyRows : List Row
  allRows : List Row
  deriving Repr

/-- Row collection: `tbody tr` first; if empty, all `tr` that contain a
`td`. -/
def collectRows (s : TableSnapshot) : List Row :=
  if s.tbodyRows.length = 0 then s.allRows.filter (fun r => !r.isEmpty)
  else s.tbodyRows

/-- Models `text.strip().replace(',', '')` followed by
`cleaned.isdigit() and int(cleaned) > 0`. -/
def cellNonzero (c : Cell) : Bool :=
  let cleaned := pyRemoveChar ',' (pyStrip c.text)
  pyIsDigit cleaned && decide (0 < digitsVal cleaned.data)

/-- The `total_nonzero` accumulation of the poll loop: for each row with
more than one cell, count the non-zero numeric cells among `cells[1:]`. -/
def attemptNonzero (rows : List Row) : Nat :=
  rows.foldl (fun acc r => if 1 < r.length then acc + (r.drop 1).countP (fun c => cellNonzero c) else acc) 0

/-- Models `threshold = max(10, int(len(rows) * 0.05))`. -/
def popThreshold (rows : List Row) : Nat :=
  max 10 (rows.length * 5 / 100)

/-- The break condition of one poll attempt: rows present and
`total_nonzero >= threshold`. -/
def isPopulatedAttempt (rows : List Row) : Bool :=
  decide (0 < rows.length) && decide (popThreshold rows ≤ attemptNonzero rows)

def maxRetries : Nat := 20

/-- Models `await asyncio.sleep(3)` between attempts, in time units. -/
def sleepInterval : Nat := 3

/-- The poll loop from attempt number `attempt`, with `fuel` attempts left.
Returns the loop result together with the number of attempts performed and
the total time slept.  On `break` the collected rows are returned with no
further sleep; when the budget runs out the `for ... else` raises
`Table did not populate ...` (screenshot side effect not modelled). -/
def pollFrom (snapAt : Nat → TableSnapshot) : Nat → Nat → Except ScrapeError (List Row) × Nat × Nat
  | _, 0 => (.error .tableNotPopulated, 0, 0)
  | attempt, fuel + 1 =>
    let rows := collectRows (snapAt attempt)
    if isPopulatedAttempt rows then (.ok rows, 1, 0)
    else
      let r := pollFrom snapAt (attempt + 1) fuel
      (r.1, r.2.1 + 1, r.2.2 + sleepInterval)

/-- Models `for attempt in range(max_retries): ...` over the evolving table. -/
def pollTable (snapAt : Nat → TableSnapshot) : Except ScrapeError (List Row) × Nat × Nat :=
  pollFrom snapAt 0 maxRetries

/-! ## RowExtractor (scrape_table, column resolution and row loop) -/

/-- Models `h.replace('\n', ' ').strip().upper()`. -/
def headerClean (h : String) : String :=
  pyUpper (pyStrip (pySubstChar '\n' ' ' h))

def matchesLocation (h : String) : Bool := pyContains (headerClean h) "LOCATION"

def matchesFollowup (h : String) : Bool :=
  pyContains (headerClean h) "FOLLOW-UP" || pyContains (headerClean h) "FOLLOW UP"

def matchesUnprocessed (h : String) : Bool := pyContains (headerClean h) "UNPROCESSED"

/-- Mutable `location_idx` / `followup_idx` / `unprocessed_idx`. -/
structure ResolveState where
  loc : Option Nat
  fu : Option Nat
  unp : Option Nat
  deriving DecidableEq, Repr

/-- One iteration of `for i, h in enumerate(header_texts)`: each matching
marker overwrites its index, so the last match wins. -/
def resolveStep (st : ResolveState) (ih : Nat × String) : ResolveState :=
  let st1 := if matchesLocation ih.2 then { st with loc := some ih.1 } else st
  let st2 := if matchesFollowup ih.2 then { st1 with fu := some ih.1 } else st1
  if matchesUnprocessed ih.2 then { st2 with unp := some ih.1 } else st2

/-- Column resolution; on any unresolved index the code raises
`Could not find required columns. Headers: ...`. -/
def resolveColumns (headers : List String) : Except ScrapeError ColumnIndexMap :=
  let st := headers.enum.foldl resolveStep ⟨none, none, none⟩
  match st.loc, st.fu, st.unp with
  | some l, some f, some u => .ok ⟨l, f, u⟩
  | _, _, _ => .error (.missingColumns headers)

/-- Location text: the nested `p.location-name` if present, else the cell
text; both stripped. -/
def locationOf (c : Cell) : String :=
  match c.locName with
  | some p => pyStrip p
  | none => pyStrip c.text

/-- Models `s.strip()` then `.replace(',', '').replace(' ', '')` for numeric
cells. -/
def numClean (s : String) : String :=
  pyRemoveChar ' ' (pyRemoveChar ',' (pyStrip s))

def emptyCell : Cell := ⟨"", none⟩

/-- One iteration of the row loop: skip rows with too few cells; parse the
two numeric cells; a failed `int(...)` skips the row (warning logged). -/
def extractRow (idx : ColumnIndexMap) (cells : Row) : Option ExtractedRecord :=
  if max idx.locationIdx (max idx.followupIdx idx.unprocessedIdx) < cells.length then
    let location := locationOf (cells.getD idx.locationIdx emptyCell)
    let fc := numClean (cells.getD idx.followupIdx emptyCell).text
    let uc := numClean (cells.getD idx.unprocessedIdx emptyCell).text
    match pyParseInt? fc, pyParseInt? uc with
    | some f, some u => some ⟨location, f, u⟩
    | _, _ => none
  else none

/-- The `data` list accumulated by the row loop. -/
def extractRows (idx : ColumnIndexMap) (rows : List Row) : List ExtractedRecord :=
  rows.filterMap (extractRow idx)

/-- Models `if not data: raise ValueError("No valid data ...")`. -/
def extractAll (idx : ColumnIndexMap) (rows : List Row) : Except ScrapeError (List ExtractedRecord) :=
  let data := extractRows idx rows
  if data.isEmpty then .error .noValidData else .ok data

/-- Column resolution followed by row extraction, as in `scrape_table`
after the poll loop. -/
def scrapeRecords (headers : List String) (rows : List Row) : Except ScrapeError (List ExtractedRecord) :=
  match resolveColumns headers with
  | .error e => .error e
  | .ok idx => extractAll idx rows

/-! ## SnapshotWriter (save_to_database)

The stored procedure `Testing.GetOutstandingCPFollowUps` and the pyodbc
transaction are modelled explicitly: each `cursor.execute` places the
record in the connection's uncommitted `pending` buffer; `commit` moves the
whole buffer to `persisted`; `rollback` discards it.  The procedure's
response for a record is an oracle `resp`: it may raise (`err`), return no
result row (`noRow`, in which case the code neither commits nor rolls
back), or return `(InsertedID, Lcode)` with the location code possibly
`NULL` (`row none`).
-/

inductive ProcResult where
  | err
  | noRow
  | row (lcode : Option Int)
  deriving DecidableEq, Repr

/-- The database-visible and run-local state of `save_to_database`:
committed rows, the uncommitted buffer, `locations_without_lcode`,
`inserted` and `failed`. -/
structure WriterState where
  persisted : List ExtractedRecord
  pending : List ExtractedRecord
  unresolved : List String
  inserted : Nat
  failed : Nat
  deriving DecidableEq, Repr

/-- State after the truncate call: the destination table is empty. -/
def writerInit : WriterState := ⟨[], [], [], 0, 0⟩

/-- One iteration of the record loop in `save_to_database`. -/
def writeRecord (resp : ExtractedRecord → ProcResult) (st : WriterState) (rec : ExtractedRecord) : WriterState :=
  match resp rec with
  | .err =>
    { st with pending := [], failed := st.failed + 1 }
  | .noRow =>
    { st with pending := st.pending ++ [rec] }
  | .row none =>
    { st with pending := [],
              unresolved := st.unresolved ++ [rec.location],
              failed := st.failed + 1 }
  | .row (some _) =>
    { st with persisted := st.persisted ++ (st.pending ++ [rec]),
              pending := [],
              inserted := st.inserted + 1 }

/-- Models `save_to_database`: truncate, then process every record in order. -/
def saveToDatabase (resp : ExtractedRecord → ProcResult) (data : List ExtractedRecord) : WriterState :=
  data.foldl (writeRecord resp) writerInit

/-! ## Spec-side definitions

These follow the wording of the specification claims, for comparison with
the definitions above, which are translated from the source.
-/

/-- Claim wording for the poller count: the number of data cells (all
cells of each row except the first) whose cleaned text is a positive
integer literal. -/
def specNonzeroCount (rows : List Row) : Nat :=
  (rows.map (fun r => ((r.drop 1).filter (fun c => cellNonzero c)).length)).sum

/-- Claim wording for the poller threshold: `max(10, ceil(0.05 × rowCount))`,
with the ceiling taken over exact rationals. -/
def specCeilThreshold (rows : List Row) : Nat :=
  max 10 ((rows.length * 5 + 99) / 100)

/-- Claim wording for the locator: header texts joined and upper-cased
contain both `LOCATION` and `FOLLOW` (no guard on the header list being
non-empty). -/
def specQualifies (t : Table) : Bool :=
  pyContains (headerJoin t.headers) "LOCATION" && pyContains (headerJoin t.headers) "FOLLOW"

/-! ## Helper recursion for column resolution proofs

`lastMatch p n hs a` is the index (offset by `n`) of the last element of
`hs` satisfying `p`, defaulting to `a`; it is what each component of the
resolution fold computes.
-/

def lastMatch (p : String → Bool) : Nat → List String → Option Nat → Option Nat
  | _, [], a => a
  | n, h :: t, a => lastMatch p (n + 1) t (if p h then some n else a)

/-! ## Concrete inputs used by witnesses and counterexamples -/

def exRowNZ : Row := [⟨"Loc", none⟩, ⟨"1", none⟩]

def exRowZ : Row := [⟨"Loc", none⟩, ⟨"0", none⟩]

/-- A table of 210 rows, 10 of them with a non-zero data cell. -/
def exC1Rows : List Row := List.replicate 10 exRowNZ ++ List.replicate 200 exRowZ

/-- A row whose location cell is blank and whose numeric cells are
negative. -/
def exC2Row : Row := [⟨" ", none⟩, ⟨"-5", none⟩, ⟨"-7", none⟩]

def exC3Headers : List String := ["Location", "Follow-Ups", "Unprocessed"]

def exC3Rows : List Row :=
  [[⟨"Site A", none⟩, ⟨"10", none⟩, ⟨"3", none⟩],
   [⟨"Site B", none⟩, ⟨"0", none⟩, ⟨"0", none⟩],
   [⟨"Site C", none⟩, ⟨"N/A", none⟩, ⟨"5", none⟩]]

/-- The second header contains both the follow-up and the unprocessed
markers, but a later header also contains the unprocessed marker. -/
def exC10Headers : List String := ["LOCATION", "FOLLOW-UP UNPROCESSED", "UNPROCESSED COUNT"]

def exSnapEmpty : TableSnapshot := ⟨[], []⟩

/-- A snapshot with ten rows, each with one non-zero data cell. -/
def exSnapGood : TableSnapshot := ⟨List.replicate 10 exRowNZ, []⟩

/-- Empty on the first attempt, populated from the second on. -/
def exSnapAt (i : Nat) : TableSnapshot := if i = 0 then exSnapEmpty else exSnapGood

def exRecA : ExtractedRecord := ⟨"Site A", 10, 3⟩

/-- A stored-procedure oracle that always returns a NULL location code. -/
def exRespNull (_ : ExtractedRecord) : ProcResult := .row none

end Scraper

deriving instance DecidableEq for Except

namespace Scraper

/-! ## Poller counting lemmas -/

theorem foldl_count_eq_sum (l : List Row) (a : Nat) :
    l.foldl (fun acc r => if 1 < r.length then acc + (r.drop 1).countP (fun c => cellNonzero c) else acc) a
      = a + (l.map (fun r => ((r.drop 1).filter (fun c => cellNonzero c)).length)).sum := by
  induction l generalizing a with
  | nil => simp
  | cons r t ih =>
    simp only [List.foldl_cons, List.map_cons, List.sum_cons]
    by_cases h : 1 < r.length
    · rw [if_pos h, ih, List.countP_eq_length_filter]
      omega
    · rw [if_neg h, ih]
      have hd : r.drop 1 = [] := List.drop_eq_nil_of_le (by omega)
      rw [hd]
      simp

theorem attemptNonzero_eq_spec (rows : List Row) :
    attemptNonzero rows = specNonzeroCount rows := by
  simpa [attemptNonzero, specNonzeroCount] using foldl_count_eq_sum rows 0

/-- C1 (amended): on every poll attempt with a non-empty collected row list,
the table is deemed populated iff the number of data cells whose cleaned
text is a positive integer literal is at least
`max(10, floor(0.05 × rowCount))` — the threshold is computed with
truncation (`int(...)`), not with a ceiling. -/
theorem c1_populated_iff_floor_threshold (rows : List Row) (h : rows ≠ []) :
    isPopulatedAttempt rows = true ↔
      max 10 (rows.length * 5 / 100) ≤ specNonzeroCount rows := by
  have hlen : 0 < rows.length := List.length_pos.mpr h
  simp [isPopulatedAttempt, popThreshold, attemptNonzero_eq_spec, hlen]

/-- Witness for `c1_populated_iff_floor_threshold` at ten rows with one
non-zero data cell each. -/
theorem c1_populated_iff_floor_threshold_witness :
    isPopulatedAttempt (List.replicate 10 exRowNZ) = true ↔
      max 10 ((List.replicate 10 exRowNZ).length * 5 / 100) ≤ specNonzeroCount (List.replicate 10 exRowNZ) :=
  c1_populated_iff_floor_threshold (List.replicate 10 exRowNZ) (by decide)

/-- C1 (counterexample): at 210 collected rows of which exactly 10 data
cells are non-zero, the code deems the table populated, yet the claimed
threshold `max(10, ceil(0.05 × 210)) = 11` is not reached. -/
theorem c1_ceil_threshold_counterexample :
    isPopulatedAttempt exC1Rows = true ∧
      ¬ specCeilThreshold exC1Rows ≤ specNonzeroCount exC1Rows := by
  have h1 : ((exRowNZ.drop 1).filter (fun c => cellNonzero c)).length = 1 := by decide
  have h0 : ((exRowZ.drop 1).filter (fun c => cellNonzero c)).length = 0 := by decide
  have hspec : specNonzeroCount exC1Rows = 10 := by
    simp only [specNonzeroCount, exC1Rows, List.map_append, List.map_replicate, h1, h0,
      List.sum_append, List.sum_replicate, smul_eq_mul]
  have hlen : exC1Rows.length = 210 := by
    simp only [exC1Rows, List.length_append, List.length_replicate]
  refine ⟨?_, ?_⟩
  · have := attemptNonzero_eq_spec exC1Rows
    simp [isPopulatedAttempt, popThreshold, this, hspec, hlen]
  · simp [specCeilThreshold, hspec, hlen]

/-! ## RowExtractor record shape -/

/-- C2 (counterexample): a row with a blank location cell and negative
numeric cells is extracted as a record whose location is empty and whose
counts are negative. -/
theorem c2_record_counterexample :
    extractRows ⟨0, 1, 2⟩ [exC2Row] = [{ location := "", followups := -5, unprocessed := -7 }] ∧
      ¬ (("" : String) ≠ "" ∧ 0 ≤ (-5 : Int) ∧ 0 ≤ (-7 : Int)) := by
  decide

/-- C2 (amended): every record in the extractor's output is produced by the
per-row extractor from some input row, and its location is the
whitespace-strip of some string (no non-emptiness or non-negativity is
guaranteed). -/
theorem c2_record_shape (idx : ColumnIndexMap) (rows : List Row) (rec : ExtractedRecord)
    (h : rec ∈ extractRows idx rows) :
    (∃ row, row ∈ rows ∧ extractRow idx row = some rec) ∧ ∃ s, rec.location = pyStrip s := by
  obtain ⟨row, hrow, heq⟩ := List.mem_filterMap.mp h
  refine ⟨⟨row, hrow, heq⟩, ?_⟩
  simp only [extractRow] at heq
  split at heq
  · split at heq
    · rename_i f u hf hu
      cases heq
      simp only [locationOf]
      cases (row.getD idx.locationIdx emptyCell).locName with
      | some p => exact ⟨p, rfl⟩
      | none => exact ⟨(row.getD idx.locationIdx emptyCell).text, rfl⟩
    · exact absurd heq (by simp)
  · exact absurd heq (by simp)

/-- Witness for `c2_record_shape` at the blank/negative row. -/
theorem c2_record_shape_witness :
    (∃ row, row ∈ [exC2Row] ∧ extractRow ⟨0, 1, 2⟩ row = some { location := "", followups := -5, unprocessed := -7 }) ∧
      ∃ s, ({ location := "", followups := -5, unprocessed := -7 : ExtractedRecord }).location = pyStrip s :=
  c2_record_shape ⟨0, 1, 2⟩ [exC2Row] { location := "", followups := -5, unprocessed := -7 } (by decide)

/-- C3: the end-to-end example: Site A and Site B extracted in order, the
Site C row skipped non-fatally because `N/A` fails integer parsing. -/
theorem c3_end_to_end :
    scrapeRecords exC3Headers exC3Rows =
      .ok [{ location := "Site A", followups := 10, unprocessed := 3 },
           { location := "Site B", followups := 0, unprocessed := 0 }] := by
  decide

/-- C8: when per-row extraction yields no record, the extractor fails with
`NoValidData` and never returns a list. -/
theorem c8_empty_extraction_fails (idx : ColumnIndexMap) (rows : List Row)
    (h : extractRows idx rows = []) :
    extractAll idx rows = .error .noValidData ∧ ∀ l, extractAll idx rows ≠ .ok l := by
  constructor <;> simp [extractAll, h]

/-- Witness for `c8_empty_extraction_fails` at a single unparsable row. -/
theorem c8_empty_extraction_fails_witness :
    extractAll ⟨0, 1, 2⟩ [[⟨"X", none⟩, ⟨"N/A", none⟩, ⟨"5", none⟩]] = .error .noValidData ∧
      ∀ l, extractAll ⟨0, 1, 2⟩ [[⟨"X", none⟩, ⟨"N/A", none⟩, ⟨"5", none⟩]] ≠ .ok l :=
  c8_empty_extraction_fails ⟨0, 1, 2⟩ [[⟨"X", none⟩, ⟨"N/A", none⟩, ⟨"5", none⟩]] (by decide)

/-! ## TableLocator -/

theorem tableQualifies_eq_spec (t : Table) : tableQualifies t = specQualifies t := by
  rcases t with ⟨hs⟩
  cases hs with
  | nil => decide
  | cons h t => simp [tableQualifies, specQualifies]

theorem locateInTables_eq_find (l : List Table) : locateInTables l = l.find? specQualifies := by
  induction l with
  | nil => rfl
  | cons t rest ih =>
    rw [locateInTables, tableQualifies_eq_spec, ih]
    cases h : specQualifies t <;> simp [h]

/-- C4: the locator returns the first table, scanning frames in order and
tables within a frame in document order, whose joined upper-cased header
texts contain both `LOCATION` and `FOLLOW`; with no such table it fails
with `TableNotFound` (the diagnostic screenshot is a side effect outside
the embedding). -/
theorem c4_locator_first_match (frames : List Frame) :
    locateTable frames =
      match frames.flatten.find? specQualifies with
      | some t => .ok t
      | none => .error .tableNotFound := by
  induction frames with
  | nil => rfl
  | cons f rest ih =>
    rw [locateTable, locateInTables_eq_find, List.flatten_cons, List.find?_append, ih]
    cases h : f.find? specQualifies <;> simp [h]

/-! ## TablePoller -/

theorem pollFrom_success (snapAt : Nat → TableSnapshot) :
    ∀ (d start fuel : Nat), d < fuel →
      isPopulatedAttempt (collectRows (snapAt (start + d))) = true →
      (∀ j, j < d → isPopulatedAttempt (collectRows (snapAt (start + j))) = false) →
      pollFrom snapAt start fuel =
        (.ok (collectRows (snapAt (start + d))), d + 1, sleepInterval * d) := by
  intro d
  induction d with
  | zero =>
    intro start fuel hf hp _
    obtain ⟨f, rfl⟩ : ∃ f, fuel = f + 1 := ⟨fuel - 1, by omega⟩
    simp only [Nat.add_zero] at hp ⊢
    simp [pollFrom, hp]
  | succ d ih =>
    intro start fuel hf hp hb
    obtain ⟨f, rfl⟩ : ∃ f, fuel = f + 1 := ⟨fuel - 1, by omega⟩
    have h0 : isPopulatedAttempt (collectRows (snapAt start)) = false := by
      simpa using hb 0 (by omega)
    have hstep := ih (start + 1) f (by omega)
      (by rw [show start + 1 + d = start + (d + 1) by omega]; exact hp)
      (by intro j hj
          rw [show start + 1 + j = start + (j + 1) by omega]
          exact hb (j + 1) (by omega))
    simp only [pollFrom, h0, Bool.false_eq_true, if_false, hstep]
    refine Prod.ext ?_ (Prod.ext ?_ ?_) <;>
      simp [show start + 1 + d = start + (d + 1) by omega, Nat.mul_succ]

/-- C5: if the populated predicate first holds on attempt `k ≤ 20`, the
poller returns the rows of attempt `k` after exactly `k` attempts, with
`k - 1` sleeps of the fixed interval and no sleep after the successful
attempt. -/
theorem c5_returns_after_k_attempts (snapAt : Nat → TableSnapshot) (k : Nat)
    (hk1 : 1 ≤ k) (hk : k ≤ 20)
    (hp : isPopulatedAttempt (collectRows (snapAt (k - 1))) = true)
    (hb : ∀ j, j < k - 1 → isPopulatedAttempt (collectRows (snapAt j)) = false) :
    pollTable snapAt = (.ok (collectRows (snapAt (k - 1))), k, sleepInterval * (k - 1)) := by
  have h := pollFrom_success snapAt (k - 1) 0 maxRetries (by simp only [maxRetries]; omega)
    (by simpa using hp) (by intro j hj; simpa using hb j hj)
  rw [pollTable, h]
  simp only [Nat.zero_add]
  refine Prod.ext rfl (Prod.ext ?_ rfl)
  simp only []
  omega

/-- Witness for `c5_returns_after_k_attempts`: empty on attempt 1,
populated on attempt 2. -/
theorem c5_returns_after_k_attempts_witness :
    pollTable exSnapAt = (.ok (collectRows (exSnapAt (2 - 1))), 2, sleepInterval * (2 - 1)) :=
  c5_returns_after_k_attempts exSnapAt 2 (by omega) (by omega)
    (by decide)
    (by intro j hj
        have hj0 : j = 0 := by omega
        subst hj0
        decide)

theorem pollFrom_allfail (snapAt : Nat → TableSnapshot) :
    ∀ (fuel start : Nat),
      (∀ j, j < fuel → isPopulatedAttempt (collectRows (snapAt (start + j))) = false) →
      pollFrom snapAt start fuel = (.error .tableNotPopulated, fuel, sleepInterval * fuel) := by
  intro fuel
  induction fuel with
  | zero => intro start _; simp [pollFrom]
  | succ f ih =>
    intro start hb
    have h0 : isPopulatedAttempt (collectRows (snapAt start)) = false := by
      simpa using hb 0 (by omega)
    have hstep := ih (start + 1)
      (by intro j hj
          rw [show start + 1 + j = start + (j + 1) by omega]
          exact hb (j + 1) (by omega))
    simp only [pollFrom, h0, Bool.false_eq_true, if_false, hstep]
    simp [Nat.mul_succ]

theorem pollFrom_error_exhausts (snapAt : Nat → TableSnapshot) :
    ∀ (fuel start : Nat) (e : ScrapeError),
      (pollFrom snapAt start fuel).1 = .error e →
      pollFrom snapAt start fuel = (.error .tableNotPopulated, fuel, sleepInterval * fuel) := by
  intro fuel
  induction fuel with
  | zero => intro start e _; simp [pollFrom]
  | succ f ih =>
    intro start e h
    cases h0 : isPopulatedAttempt (collectRows (snapAt start)) with
    | true =>
      rw [pollFrom] at h
      simp [h0] at h
    | false =>
      rw [pollFrom] at h ⊢
      simp only [h0, Bool.false_eq_true, if_false] at h ⊢
      have := ih (start + 1) e h
      rw [this]
      simp [Nat.mul_succ]

/-- C6: a table whose populated predicate never holds makes the poller run
all 20 attempts, with a fixed 3-unit sleep separating consecutive
attempts, before failing with `TableNotPopulated`; and whenever the poller
fails it has performed the full attempt budget, never fewer. -/
theorem c6_exhausts_budget (snapAt : Nat → TableSnapshot) :
    ((∀ j, j < maxRetries → isPopulatedAttempt (collectRows (snapAt j)) = false) →
      pollTable snapAt = (.error .tableNotPopulated, maxRetries, sleepInterval * maxRetries))
    ∧ ∀ e, (pollTable snapAt).1 = .error e →
        pollTable snapAt = (.error .tableNotPopulated, maxRetries, sleepInterval * maxRetries) := by
  constructor
  · intro hb
    exact pollFrom_allfail snapAt maxRetries 0 (by intro j hj; simpa using hb j hj)
  · intro e h
    exact pollFrom_error_exhausts snapAt maxRetries 0 e h

/-- Witness for `c6_exhausts_budget` on a table that stays empty. -/
theorem c6_exhausts_budget_witness :
    pollTable (fun _ => exSnapEmpty) = (.error .tableNotPopulated, maxRetries, sleepInterval * maxRetries) :=
  (c6_exhausts_budget (fun _ => exSnapEmpty)).1 (by intro j hj; decide)

/-! ## Column resolution -/

theorem resolveStep_loc (st : ResolveState) (ih : Nat × String) :
    (resolveStep st ih).loc = if matchesLocation ih.2 then some ih.1 else st.loc := by
  simp only [resolveStep]
  cases hl : matchesLocation ih.2 <;> cases hf : matchesFollowup ih.2 <;>
    cases hu : matchesUnprocessed ih.2 <;> simp [hl, hf, hu]

theorem resolveStep_fu (st : ResolveState) (ih : Nat × String) :
    (resolveStep st ih).fu = if matchesFollowup ih.2 then some ih.1 else st.fu := by
  simp only [resolveStep]
  cases hl : matchesLocation ih.2 <;> cases hf : matchesFollowup ih.2 <;>
    cases hu : matchesUnprocessed ih.2 <;> simp [hl, hf, hu]

theorem resolveStep_unp (st : ResolveState) (ih : Nat × String) :
    (resolveStep st ih).unp = if matchesUnprocessed ih.2 then some ih.1 else st.unp := by
  simp only [resolveStep]
  cases hl : matchesLocation ih.2 <;> cases hf : matchesFollowup ih.2 <;>
    cases hu : matchesUnprocessed ih.2 <;> simp [hl, hf, hu]

/-- Each component of the resolution fold computes the index of the last
matching header. -/
theorem foldl_resolveStep_eq (hs : List String) :
    ∀ (n : Nat) (st : ResolveState),
      (List.enumFrom n hs).foldl resolveStep st =
        ⟨lastMatch matchesLocation n hs st.loc,
         lastMatch matchesFollowup n hs st.fu,
         lastMatch matchesUnprocessed n hs st.unp⟩ := by
  induction hs with
  | nil => intro n st; cases st; rfl
  | cons h t ih =>
    intro n st
    simp only [List.enumFrom, List.foldl_cons, ih, lastMatch,
      resolveStep_loc, resolveStep_fu, resolveStep_unp]

theorem lastMatch_eq_none_iff (p : String → Bool) :
    ∀ (hs : List String) (n : Nat) (a : Option Nat),
      lastMatch p n hs a = none ↔ a = none ∧ ∀ h ∈ hs, p h = false := by
  intro hs
  induction hs with
  | nil => intro n a; simp [lastMatch]
  | cons h t ih =>
    intro n a
    rw [lastMatch, ih]
    cases hp : p h <;> simp [hp]

theorem lastMatch_all_false (p : String → Bool) :
    ∀ (hs : List String) (n : Nat) (a : Option Nat),
      (∀ h ∈ hs, p h = false) → lastMatch p n hs a = a := by
  intro hs
  induction hs with
  | nil => intro n a _; rfl
  | cons h t ih =>
    intro n a hall
    rw [lastMatch]
    have hh : p h = false := hall h (List.mem_cons_self h t)
    rw [hh]
    exact ih (n + 1) a (fun x hx => hall x (List.mem_cons_of_mem h hx))

theorem lastMatch_last (p : String → Bool) :
    ∀ (hs : List String) (i n : Nat) (a : Option Nat) (hi : i < hs.length),
      p (hs.get ⟨i, hi⟩) = true →
      (∀ j (hj : j < hs.length), i < j → p (hs.get ⟨j, hj⟩) = false) →
      lastMatch p n hs a = some (n + i) := by
  intro hs
  induction hs with
  | nil => intro i n a hi _ _; exact absurd hi (by simp)
  | cons h t ih =>
    intro i n a hi hp hafter
    cases i with
    | zero =>
      rw [lastMatch]
      have hh : p h = true := hp
      rw [hh, if_pos rfl]
      have hall : ∀ x ∈ t, p x = false := by
        intro x hx
        obtain ⟨⟨j, hj⟩, rfl⟩ := List.mem_iff_get.mp hx
        exact hafter (j + 1) (by simpa using hj) (by omega)
      rw [lastMatch_all_false p t (n + 1) (some n) hall]
      simp
    | succ i' =>
      rw [lastMatch]
      have hi' : i' < t.length := by simpa using hi
      have hrec := ih i' (n + 1) (if p h then some n else a) hi' hp
        (fun j hj hlt => hafter (j + 1) (by simpa using hj) (by omega))
      rw [hrec]
      congr 1
      omega

/-- C7: resolution fails with `MissingColumns` carrying the headers seen
iff some marker is unmatched over the cleaned header texts; and when it
fails, no data row is extracted. -/
theorem c7_missing_columns_iff (headers : List String) (rows : List Row) :
    (resolveColumns headers = .error (.missingColumns headers) ↔
      (∀ h ∈ headers, matchesLocation h = false) ∨
      (∀ h ∈ headers, matchesFollowup h = false) ∨
      (∀ h ∈ headers, matchesUnprocessed h = false))
    ∧ (resolveColumns headers = .error (.missingColumns headers) →
        scrapeRecords headers rows = .error (.missingColumns headers)) := by
  have hA : (∀ h ∈ headers, matchesLocation h = false) ↔
      lastMatch matchesLocation 0 headers none = none := by
    rw [lastMatch_eq_none_iff]; simp
  have hB : (∀ h ∈ headers, matchesFollowup h = false) ↔
      lastMatch matchesFollowup 0 headers none = none := by
    rw [lastMatch_eq_none_iff]; simp
  have hC : (∀ h ∈ headers, matchesUnprocessed h = false) ↔
      lastMatch matchesUnprocessed 0 headers none = none := by
    rw [lastMatch_eq_none_iff]; simp
  constructor
  · rw [resolveColumns]
    simp only [List.enum, foldl_resolveStep_eq, hA, hB, hC]
    rcases lastMatch matchesLocation 0 headers none with _ | l <;>
      rcases lastMatch matchesFollowup 0 headers none with _ | f <;>
        rcases lastMatch matchesUnprocessed 0 headers none with _ | u <;> simp
  · intro h
    simp [scrapeRecords, h]

/-- Witness for `c7_missing_columns_iff`: a lone location header fails and
extracts nothing. -/
theorem c7_missing_columns_iff_witness :
    resolveColumns ["Location"] = .error (.missingColumns ["Location"]) ∧
      scrapeRecords ["Location"] [] = .error (.missingColumns ["Location"]) := by
  have h := c7_missing_columns_iff ["Location"] []
  have he : resolveColumns ["Location"] = .error (.missingColumns ["Location"]) :=
    h.1.mpr (Or.inr (Or.inl (by decide)))
  exact ⟨he, h.2 he⟩

/-- C10 (counterexample): the second header contains both the follow-up
and the unprocessed markers, yet the two indices resolve to different
positions because a later header also matches the unprocessed marker. -/
theorem c10_shared_header_counterexample :
    matchesFollowup "FOLLOW-UP UNPROCESSED" = true ∧
      matchesUnprocessed "FOLLOW-UP UNPROCESSED" = true ∧
      resolveColumns exC10Headers = .ok ⟨0, 1, 2⟩ ∧ (1 : Nat) ≠ 2 := by
  decide

/-- C10 (amended): indices need not be distinct, and each marker resolves
to its last matching header; when the header at position `i` matches both
the follow-up and the unprocessed markers and no later header matches
either, both indices resolve to `i` and extraction reads the same cell for
both counts, so every extracted record has `followups = unprocessed`. -/
theorem c10_last_match_shared_index (headers : List String) (i : Nat) (hi : i < headers.length)
    (hloc : ∃ h, h ∈ headers ∧ matchesLocation h = true)
    (hfu : matchesFollowup (headers.get ⟨i, hi⟩) = true)
    (hunp : matchesUnprocessed (headers.get ⟨i, hi⟩) = true)
    (hafter : ∀ j (hj : j < headers.length), i < j →
      matchesFollowup (headers.get ⟨j, hj⟩) = false ∧
      matchesUnprocessed (headers.get ⟨j, hj⟩) = false) :
    (∃ l, resolveColumns headers = .ok ⟨l, i, i⟩) ∧
      ∀ idxs cells rec, resolveColumns headers = .ok idxs →
        extractRow idxs cells = some rec → rec.followups = rec.unprocessed := by
  have hfu' : lastMatch matchesFollowup 0 headers none = some i := by
    have := lastMatch_last matchesFollowup headers i 0 none hi hfu
      (fun j hj hlt => (hafter j hj hlt).1)
    simpa using this
  have hunp' : lastMatch matchesUnprocessed 0 headers none = some i := by
    have := lastMatch_last matchesUnprocessed headers i 0 none hi hunp
      (fun j hj hlt => (hafter j hj hlt).2)
    simpa using this
  obtain ⟨l, hl⟩ : ∃ l, lastMatch matchesLocation 0 headers none = some l := by
    rcases hll : lastMatch matchesLocation 0 headers none with _ | l
    · obtain ⟨h, hmem, hmatch⟩ := hloc
      have := ((lastMatch_eq_none_iff matchesLocation headers 0 none).mp hll).2 h hmem
      rw [hmatch] at this
      exact absurd this (by simp)
    · exact ⟨l, rfl⟩
  have hres : resolveColumns headers = .ok ⟨l, i, i⟩ := by
    rw [resolveColumns]
    simp only [List.enum, foldl_resolveStep_eq, hl, hfu', hunp']
  refine ⟨⟨l, hres⟩, ?_⟩
  intro idxs cells rec hres' hext
  have hidxs : idxs = ⟨l, i, i⟩ := by
    rw [hres] at hres'
    exact (Except.ok.inj hres').symm
  subst hidxs
  simp only [extractRow] at hext
  split at hext
  · split at hext
    · rename_i f u hf hu
      rw [hf] at hu
      cases hu
      cases hext
      rfl
    · exact absurd hext (by simp)
  · exact absurd hext (by simp)

/-- Witness for `c10_last_match_shared_index` on a two-header table whose
second header holds both counts. -/
theorem c10_last_match_shared_index_witness :
    (∃ l, resolveColumns ["LOCATION", "FOLLOW-UPS UNPROCESSED"] = .ok ⟨l, 1, 1⟩) ∧
      ∀ idxs cells rec, resolveColumns ["LOCATION", "FOLLOW-UPS UNPROCESSED"] = .ok idxs →
        extractRow idxs cells = some rec → rec.followups = rec.unprocessed :=
  c10_last_match_shared_index ["LOCATION", "FOLLOW-UPS UNPROCESSED"] 1 (by decide)
    ⟨"LOCATION", by decide, by decide⟩ (by decide) (by decide)
    (by intro j hj hlt
        exfalso
        simp at hj
        omega)

/-! ## SnapshotWriter -/

theorem writer_loop_spec (resp : ExtractedRecord → ProcResult) :
    ∀ (data : List ExtractedRecord) (st : WriterState),
      (∀ r ∈ st.pending, resp r = .noRow) →
      ((data.foldl (writeRecord resp) st).unresolved =
        st.unresolved ++ (data.filter (fun r => decide (resp r = ProcResult.row none))).map (fun r => r.location))
      ∧ ∀ r ∈ (data.foldl (writeRecord resp) st).persisted,
          r ∈ st.persisted ∨ resp r ≠ .row none := by
  intro data
  induction data with
  | nil => intro st _; exact ⟨by simp, fun r hr => Or.inl hr⟩
  | cons rec rest ih =>
    intro st hp
    simp only [List.foldl_cons, List.filter_cons]
    cases hresp : resp rec with
    | err =>
      have hst' : writeRecord resp st rec = { st with pending := [], failed := st.failed + 1 } := by
        rw [writeRecord, hresp]
      rw [hst']
      have h := ih { st with pending := [], failed := st.failed + 1 } (by intro r hr; simp at hr)
      simpa [hresp] using h
    | noRow =>
      have hst' : writeRecord resp st rec = { st with pending := st.pending ++ [rec] } := by
        rw [writeRecord, hresp]
      rw [hst']
      have h := ih { st with pending := st.pending ++ [rec] }
        (by intro r hr
            rcases List.mem_append.mp hr with hr1 | hr2
            · exact hp r hr1
            · rw [List.mem_singleton.mp hr2, hresp])
      simpa [hresp] using h
    | row lcode =>
      cases lcode with
      | none =>
        have hst' : writeRecord resp st rec =
            { st with pending := [],
                      unresolved := st.unresolved ++ [rec.location],
                      failed := st.failed + 1 } := by
          rw [writeRecord, hresp]
        rw [hst']
        have h := ih { st with pending := [],
                               unresolved := st.unresolved ++ [rec.location],
                               failed := st.failed + 1 } (by intro r hr; simp at hr)
        constructor
        · rw [h.1]
          simp [hresp]
        · exact h.2
      | some c =>
        have hst' : writeRecord resp st rec =
            { st with persisted := st.persisted ++ (st.pending ++ [rec]),
                      pending := [],
                      inserted := st.inserted + 1 } := by
          rw [writeRecord, hresp]
        rw [hst']
        have h := ih { st with persisted := st.persisted ++ (st.pending ++ [rec]),
                               pending := [],
                               inserted := st.inserted + 1 } (by intro r hr; simp at hr)
        constructor
        · rw [h.1]
          simp [hresp]
        · intro r hr
          rcases h.2 r hr with hmem | hne
          · simp only [List.mem_append] at hmem
            rcases hmem with hm1 | hm2 | hm3
            · exact Or.inl hm1
            · refine Or.inr ?_
              rw [hp r hm2]
              simp
            · refine Or.inr ?_
              rw [List.mem_singleton.mp hm3, hresp]
              simp
          · exact Or.inr hne

/-- C9: the unresolved report lists exactly, in order, one location name
per record whose stored-procedure call returned a NULL location code, and
no such record is ever persisted — its write is rolled back while the run
continues over the remaining records. -/
theorem c9_null_code_rolled_back (resp : ExtractedRecord → ProcResult) (data : List ExtractedRecord) :
    (saveToDatabase resp data).unresolved =
      (data.filter (fun r => decide (resp r = ProcResult.row none))).map (fun r => r.location)
    ∧ ∀ r ∈ (saveToDatabase resp data).persisted, resp r ≠ .row none := by
  have h := writer_loop_spec resp data writerInit (by intro r hr; simp [writerInit] at hr)
  refine ⟨?_, fun r hr => ?_⟩
  · have h1 := h.1
    simpa [saveToDatabase, writerInit] using h1
  · rcases h.2 r (by simpa [saveToDatabase] using hr) with hmem | hne
    · simp [writerInit] at hmem
    · exact hne

/-- Witness for `c9_null_code_rolled_back`: one record whose procedure
call returns a NULL code is reported once and not persisted. -/
theorem c9_null_code_rolled_back_witness :
    (saveToDatabase exRespNull [exRecA]).unresolved = ["Site A"] ∧
      exRecA ∉ (saveToDatabase exRespNull [exRecA]).persisted := by
  have h := c9_null_code_rolled_back exRespNull [exRecA]
  constructor
  · rw [h.1]; decide
  · intro hmem; exact h.2 exRecA hmem rfl

end Scraper
